import Mathlib

/-!
Verification of the astronomical core of the flatlib-astro-api service
(`src/main.py`): Julian Day conversion, sidereal time, ascendant
computation, lunar series, planet positions with their exception
fallback, house cusps and house assignment, and the small parsing and
formatting helpers.

Python floats are modelled as exact rational (`ℚ`) or real (`ℝ`)
arithmetic; `int(x)` is truncation toward zero (`pyint`), `x // y` on
integers is floor division (`Int.fdiv`), and `x % m` for a positive
float modulus `m` is `pmod x m = x - m * ⌊x / m⌋`, which is the value
CPython produces (a result in `[0, m)` carrying the sign of the
modulus).  Code that can raise is modelled with `Option`/`Except`.
-/

namespace AstroApi

section PmodBasics

variable {α : Type*} [LinearOrderedField α] [FloorRing α]

/-- Python's float modulo `x % y` for positive `y`: `x - y * floor (x / y)`. -/
def pmod (x y : α) : α := x - y * ⌊x / y⌋

/-- Python's `int()` applied to a float: truncation toward zero. -/
def pyint (x : α) : ℤ := if 0 ≤ x then ⌊x⌋ else -⌊-x⌋

theorem pmod_nonneg (x : α) {y : α} (hy : 0 < y) : 0 ≤ pmod x y := by
  have h : (⌊x / y⌋ : α) * y ≤ x := by
    rw [← le_div_iff₀ hy]
    exact Int.floor_le (x / y)
  unfold pmod
  nlinarith [h]

theorem pmod_lt (x : α) {y : α} (hy : 0 < y) : pmod x y < y := by
  have h := Int.lt_floor_add_one (x / y)
  rw [div_lt_iff₀ hy] at h
  unfold pmod
  nlinarith [h]

theorem pmod_eq_self {x y : α} (hy : 0 < y) (h0 : 0 ≤ x) (h1 : x < y) :
    pmod x y = x := by
  have hfl : ⌊x / y⌋ = 0 := by
    rw [Int.floor_eq_zero_iff]
    constructor
    · exact div_nonneg h0 hy.le
    · rw [div_lt_one hy]; exact h1
  simp [pmod, hfl]

theorem pmod_add_int_mul (x : α) {y : α} (hy : y ≠ 0) (n : ℤ) :
    pmod (x + n * y) y = pmod x y := by
  have hdiv : (x + n * y) / y = x / y + n := by
    field_simp
  unfold pmod
  rw [hdiv, Int.floor_add_int]
  push_cast
  ring

theorem pmod_sub_floor (x : α) (y : α) :
    x - pmod x y = (⌊x / y⌋ : α) * y := by
  unfold pmod; ring

/-- Congruence: arguments differing by an integer multiple of the modulus
give the same `pmod`. -/
theorem pmod_congr {a b y : α} (hy : y ≠ 0) (n : ℤ)
    (h : a = b + n * y) : pmod a y = pmod b y := by
  rw [h, pmod_add_int_mul b hy n]

/-- `pmod` of its own output is unchanged when mixed into a larger argument:
`pmod (c + pmod x y) y = pmod (c + x) y`. -/
theorem pmod_add_pmod (c x y : α) (hy : y ≠ 0) :
    pmod (c + pmod x y) y = pmod (c + x) y := by
  apply pmod_congr hy (-⌊x / y⌋)
  unfold pmod
  push_cast
  ring

theorem pyint_of_nonneg {x : α} (h : 0 ≤ x) : pyint x = ⌊x⌋ := by
  simp [pyint, h]

end PmodBasics

/-!  ## TimeConverter: Julian Day (src/main.py lines 285-292)

```python
if month <= 2:
    year -= 1
    month += 12
A = year // 100
B = 2 - A + A // 4
JD = int(365.25 * (year + 4716)) + int(30.6001 * (month + 1)) + day + B - 1524.5
JD += (hour + minute / 60.0) / 24.0
```
-/

/-- Julian Day as computed by `create_advanced_fallback_chart`; note that
no UTC-offset term appears anywhere in the computation. -/
def toJulianDay (year month day hour minute : ℤ) : ℚ :=
  let y : ℤ := if month ≤ 2 then year - 1 else year
  let m : ℤ := if month ≤ 2 then month + 12 else month
  let A : ℤ := Int.fdiv y 100
  let B : ℤ := 2 - A + Int.fdiv A 4
  ((pyint ((365.25 : ℚ) * ((y : ℚ) + 4716)) : ℚ)
      + (pyint ((30.6001 : ℚ) * ((m : ℚ) + 1)) : ℚ)
      + (day : ℚ) + (B : ℚ) - 1524.5)
    + ((hour : ℚ) + (minute : ℚ) / 60) / 24

/-!  ## Field validation (src/main.py lines 275-282)

```python
if not (1 <= month <= 12): month = 1
if not (1 <= day <= 31): day = 1
if not (0 <= hour <= 23): hour = 12
if not (0 <= minute <= 59): minute = 0
```
-/

/-- The silent range-clamping `create_advanced_fallback_chart` performs on
its parsed calendar and clock fields before computing the Julian Day. -/
def validateDateTime (year month day hour minute : ℤ) : ℤ × ℤ × ℤ × ℤ × ℤ :=
  (year,
   if 1 ≤ month ∧ month ≤ 12 then month else 1,
   if 1 ≤ day ∧ day ≤ 31 then day else 1,
   if 0 ≤ hour ∧ hour ≤ 23 then hour else 12,
   if 0 ≤ minute ∧ minute ≤ 59 then minute else 0)

/-- The Julian-Day stage of `create_advanced_fallback_chart`: validate
(by silent substitution) and convert.  The `Except` layer records that
this portion of the code contains no raise site: every input yields a
value. -/
def fallbackJulianDay (year month day hour minute : ℤ) : Except String ℚ :=
  match validateDateTime year month day hour minute with
  | (y, m, d, h, mi) => Except.ok (toJulianDay y m d h mi)

/-- The `/chart` endpoint flow: `ChartRequest` carries a `tz` field
(default `8.0`), but neither chart function receives it — the Julian Day
is computed from the local wall-clock fields only. -/
def chartJulianDay (year month day hour minute : ℤ) (_tz : ℚ) : ℚ :=
  match fallbackJulianDay year month day hour minute with
  | Except.ok jd => jd
  | Except.error _ => 0

/-- Modelled from the spec (§4.1 TimeConverter), whose conversion is
absent from the code: the same Gregorian Julian Day formula followed by
the step "then subtract `utcOffsetHours/24` to convert local time to
UT". -/
def specJulianDayUT (year month day hour minute : ℤ) (utcOffsetHours : ℚ) : ℚ :=
  let y : ℤ := if month ≤ 2 then year - 1 else year
  let m : ℤ := if month ≤ 2 then month + 12 else month
  let A : ℤ := Int.fdiv y 100
  let B : ℤ := 2 - A + Int.fdiv A 4
  ((⌊(365.25 : ℚ) * ((y : ℚ) + 4716)⌋ : ℚ)
      + (⌊(30.6001 : ℚ) * ((m : ℚ) + 1)⌋ : ℚ)
      + (day : ℚ) + (B : ℚ) - 1524.5)
    + ((hour : ℚ) + (minute : ℚ) / 60) / 24
    - utcOffsetHours / 24

/-!  ## parse_time_string (src/main.py lines 108-132)

Python strings are modelled as `List Char`; each helper mirrors the
string operation the source applies (`strip`, `replace(' ', '')`,
`split(':')`, `isdigit`, `int`).
-/

/-- Python `str.strip()`: remove leading and trailing whitespace. -/
def pyStrip (s : List Char) : List Char :=
  ((s.dropWhile Char.isWhitespace).reverse.dropWhile Char.isWhitespace).reverse

/-- Python `str.replace(' ', '')`. -/
def removeSpaces (s : List Char) : List Char :=
  s.filter (fun c => c ≠ ' ')

/-- Python `str.split(':')` (accumulator-based; always returns at least
one piece). -/
def splitColonAux : List Char → List Char → List (List Char)
  | [], acc => [acc.reverse]
  | c :: cs, acc =>
    if c = ':' then acc.reverse :: splitColonAux cs []
    else splitColonAux cs (c :: acc)

def splitColon (s : List Char) : List (List Char) := splitColonAux s []

/-- Python `str.isdigit()` for the ASCII inputs this code path sees:
nonempty and all decimal digits. -/
def pyIsDigit (s : List Char) : Bool :=
  decide (s ≠ []) && s.all Char.isDigit

def digitsToNat (s : List Char) : ℕ :=
  s.foldl (fun acc c => acc * 10 + (c.toNat - 48)) 0

/-- Python `int(str)` for the strings reachable here: an optional sign
followed by ASCII decimal digits; anything else raises (`none`).
(CPython additionally accepts underscore grouping and non-ASCII digits;
those never reach this code path.) -/
def pyParseInt : List Char → Option ℤ
  | '-' :: rest => if pyIsDigit rest then some (-(digitsToNat rest : ℤ)) else none
  | '+' :: rest => if pyIsDigit rest then some ((digitsToNat rest : ℤ)) else none
  | s => if pyIsDigit s then some ((digitsToNat s : ℤ)) else none

/-- `parse_time_string` from src/main.py: returns `(hour, minute)`, and
`(12, 0)` when nothing parses (including when `int()` raises). -/
def parse_time_string (time_str : List Char) : ℤ × ℤ :=
  let clean := removeSpaces (pyStrip time_str)
  if clean.contains ':' then
    let parts := splitColon clean
    match pyParseInt (parts.headD []) with
    | none => (12, 0)
    | some hour =>
      if parts.length > 1 then
        match pyParseInt ((parts.get? 1).getD []) with
        | none => (12, 0)
        | some minute => (hour, minute)
      else (hour, 0)
  else if clean.length == 4 && pyIsDigit clean then
    match pyParseInt (clean.take 2), pyParseInt (clean.drop 2) with
    | some h, some m => (h, m)
    | _, _ => (12, 0)
  else if clean.length ≤ 2 && pyIsDigit clean then
    match pyParseInt clean with
    | some h => (h, 0)
    | none => (12, 0)
  else (12, 0)

/-!  ## Sidereal time (src/main.py lines 357-360)

```python
GMST0 = (280.46061837 + 360.98564736629 * (JD - 2451545.0)) % 360
GMST = (GMST0 + longitude + (hour + minute/60.0) * 15) % 360
LST = GMST
```
-/

/-- The code's `GMST0`. -/
def GMST0 (JD : ℚ) : ℚ :=
  pmod (280.46061837 + 360.98564736629 * (JD - 2451545)) 360

/-- The local sidereal time the code feeds into the angles computation:
`GMST0` plus the longitude plus an additional `(hour + minute/60)·15`
term. -/
def LSTcode (JD lon : ℚ) (hour minute : ℤ) : ℚ :=
  pmod (GMST0 JD + lon + ((hour : ℚ) + (minute : ℚ) / 60) * 15) 360

/-- Modelled from the spec (§4.3 AnglesCalculator): `LST = (GMST +
longitudeDegrees) mod 360` with `GMST = (280.46061837 +
360.98564736629·n) mod 360`, `n = JD − 2451545.0`; no time-of-day term
beyond what `JD` already encodes. -/
def specLST (JD lon : ℚ) : ℚ :=
  pmod (pmod (280.46061837 + 360.98564736629 * (JD - 2451545)) 360 + lon) 360

/-- The amended description of the code's sidereal time: `GMST0` plus
longitude plus the extra `(hour + minute/60)·15` time-of-day term, all
modulo 360. -/
def specLSTAmended (JD lon : ℚ) (hour minute : ℤ) : ℚ :=
  pmod (pmod (280.46061837 + 360.98564736629 * (JD - 2451545)) 360
      + lon + ((hour : ℚ) + (minute : ℚ) / 60) * 15) 360

/-!  ## decimal_to_degrees_minutes (src/main.py lines 134-144)

```python
sign_degree = decimal_degrees % 30
degrees = int(sign_degree)
minutes = int((sign_degree - degrees) * 60)
return degrees, minutes
```
-/

def decimal_to_degrees_minutes {α : Type*} [LinearOrderedField α] [FloorRing α]
    (decimal_degrees : α) : ℤ × ℤ :=
  let sign_degree := pmod decimal_degrees 30
  let degrees := pyint sign_degree
  let minutes := pyint ((sign_degree - (degrees : α)) * 60)
  (degrees, minutes)

/-!  ## get_planet_house (src/main.py lines 146-163)

```python
try:
    planet_lon = planet_lon % 360
    for house_num in range(1, 13):
        next_house = house_num + 1 if house_num < 12 else 1
        house_start = houses[house_num - 1]
        house_end = houses[next_house - 1] if next_house <= 12 else houses[0]
        if house_start < house_end:
            if house_start <= planet_lon < house_end:
                return house_num
        else:
            if planet_lon >= house_start or planet_lon < house_end:
                return house_num
    return 1
except Exception as e:
    return 1
```

A list lookup out of range raises `IndexError`, caught by the `except`
which returns 1; this is the `.err` outcome below.  Falling through the
loop with no interval matching also returns 1.
-/

/-- Outcome of testing one house's interval. -/
inductive HouseStepResult where
  | found : ℕ → HouseStepResult
  | nomatch : HouseStepResult
  | err : HouseStepResult
deriving DecidableEq

/-- One iteration of the `get_planet_house` loop: look up this house's
start cusp and the next house's cusp and apply the (possibly wrapping)
half-open interval test. -/
def houseStep {α : Type*} [LinearOrderedField α]
    (lon : α) (houses : List α) (house_num : ℕ) : HouseStepResult :=
  let next_house := if house_num < 12 then house_num + 1 else 1
  match houses.get? (house_num - 1), houses.get? (next_house - 1) with
  | some house_start, some house_end =>
    if house_start < house_end then
      if house_start ≤ lon ∧ lon < house_end then .found house_num else .nomatch
    else
      if house_start ≤ lon ∨ lon < house_end then .found house_num else .nomatch
  | _, _ => .err

/-- The `for house_num in range(1, 13)` loop: first match wins, an
index error aborts with 1, and exhausting the loop also yields 1. -/
def houseLoop {α : Type*} [LinearOrderedField α]
    (lon : α) (houses : List α) : List ℕ → ℕ
  | [] => 1
  | k :: ks =>
    match houseStep lon houses k with
    | .found h => h
    | .nomatch => houseLoop lon houses ks
    | .err => 1

def get_planet_house {α : Type*} [LinearOrderedField α] [FloorRing α]
    (planet_lon : α) (houses : List α) : ℕ :=
  houseLoop (pmod planet_lon 360) houses (List.range' 1 12)

/-!  ## Equal-house cusps (src/main.py lines 384-388)

```python
houses = []
for i in range(12):
    house_cusp = (asc_lon + i * 30) % 360
    houses.append(house_cusp)
```
-/

def equalCusps {α : Type*} [LinearOrderedField α] [FloorRing α]
    (asc_lon : α) : List α :=
  (List.range 12).map (fun i : ℕ => pmod (asc_lon + (i : α) * 30) 360)

/-!  ## Angles: ascendant (src/main.py lines 354-372)

```python
lat_rad = math.radians(latitude)
epsilon = 23.4393 - 0.0130 * T
epsilon_rad = math.radians(epsilon)
LST_rad = math.radians(LST)
tan_asc = (math.cos(LST_rad) * math.tan(epsilon_rad) * math.cos(lat_rad)
           - math.sin(lat_rad) * math.sin(LST_rad)) / math.cos(LST_rad)
asc_lon = math.degrees(math.atan(tan_asc)) % 360
if LST > 180:
    asc_lon = (asc_lon + 180) % 360
```
-/

noncomputable def radians (x : ℝ) : ℝ := x * Real.pi / 180

noncomputable def degrees (x : ℝ) : ℝ := x * 180 / Real.pi

noncomputable def obliquity (T : ℝ) : ℝ := 23.4393 - 0.0130 * T

/-- The ascendant longitude computed by `create_advanced_fallback_chart`
from the sidereal time, the latitude and the Julian centuries `T`. -/
noncomputable def asc_lon (LST latitude T : ℝ) : ℝ :=
  let lat_rad := radians latitude
  let epsilon_rad := radians (obliquity T)
  let LST_rad := radians LST
  let tan_asc := (Real.cos LST_rad * Real.tan epsilon_rad * Real.cos lat_rad
      - Real.sin lat_rad * Real.sin LST_rad) / Real.cos LST_rad
  let raw := pmod (degrees (Real.arctan tan_asc)) 360
  if 180 < LST then pmod (raw + 180) 360 else raw

/-- Two-argument arctangent as in Python's `math.atan2`. -/
noncomputable def atan2 (y x : ℝ) : ℝ :=
  if 0 < x then Real.arctan (y / x)
  else if x < 0 then
    (if 0 ≤ y then Real.arctan (y / x) + Real.pi else Real.arctan (y / x) - Real.pi)
  else
    (if 0 < y then Real.pi / 2 else if y < 0 then -(Real.pi / 2) else 0)

/-- Modelled from the spec (§4.3): `ASC = atan2( cos(LST), −(sin(LST)·cos(ε)
+ tan(latitude)·sin(ε)) )`, normalized to `[0,360)`.  This formula is
absent from the code. -/
noncomputable def ascSpec (LST eps latitude : ℝ) : ℝ :=
  pmod (degrees (atan2 (Real.cos (radians LST))
    (-(Real.sin (radians LST) * Real.cos (radians eps)
        + Real.tan (radians latitude) * Real.sin (radians eps))))) 360

/-- The amended description of the code's ascendant: `degrees(atan((cos
LST·tan ε·cos φ − sin φ·sin LST)/cos LST)) mod 360`, with 180° added
(mod 360) when `LST > 180`, where `ε = 23.4393 − 0.0130·T`. -/
noncomputable def ascAmended (LST latitude T : ℝ) : ℝ :=
  let eps := 23.4393 - 0.0130 * T
  let raw := pmod (degrees (Real.arctan
      ((Real.cos (radians LST) * Real.tan (radians eps) * Real.cos (radians latitude)
        - Real.sin (radians latitude) * Real.sin (radians LST))
        / Real.cos (radians LST)))) 360
  if 180 < LST then pmod (raw + 180) 360 else raw

/-!  ## Moon series (src/main.py lines 300-327) -/

/-- The Sun's mean anomaly `M` (src/main.py line 301), also used by the
lunar correction series. -/
noncomputable def sunM (T : ℝ) : ℝ :=
  357.52772 + 35999.05034 * T - 0.0001603 * T ^ 2 - T ^ 3 / 300000

noncomputable def L_moon (T : ℝ) : ℝ :=
  pmod (218.3164477 + 481267.88123421 * T - 0.0015786 * T ^ 2
    + T ^ 3 / 538841 - T ^ 4 / 65194000) 360

noncomputable def D_moon (T : ℝ) : ℝ :=
  pmod (297.8501921 + 445267.1114034 * T - 0.0018819 * T ^ 2
    + T ^ 3 / 545868 - T ^ 4 / 113065000) 360

noncomputable def M_moon (T : ℝ) : ℝ :=
  pmod (134.9633964 + 477198.8675055 * T + 0.0087414 * T ^ 2
    + T ^ 3 / 69699 - T ^ 4 / 14712000) 360

noncomputable def F_moon (T : ℝ) : ℝ :=
  pmod (93.2720950 + 483202.0175233 * T - 0.0036539 * T ^ 2
    - T ^ 3 / 3526000 + T ^ 4 / 863310000) 360

/-- The `moon_corrections` list (src/main.py lines 318-325). -/
noncomputable def moon_corrections (T : ℝ) : List ℝ :=
  [6.288774 * Real.sin (radians (M_moon T)),
   1.274027 * Real.sin (radians (2 * D_moon T - M_moon T)),
   0.658314 * Real.sin (radians (2 * D_moon T)),
   0.213618 * Real.sin (radians (2 * M_moon T)),
   -0.185116 * Real.sin (radians (sunM T)),
   -0.114332 * Real.sin (radians (2 * F_moon T))]

/-- `moon_lon = (L_moon + sum(moon_corrections)) % 360`. -/
noncomputable def moon_lon (T : ℝ) : ℝ :=
  pmod (L_moon T + (moon_corrections T).sum) 360

/-- The claim's six-term lunar formula: the mean longitude plus the six
largest periodic corrections with the stated coefficients, modulo 360. -/
noncomputable def moonSpecSix (T : ℝ) : ℝ :=
  pmod (L_moon T
    + 6.288774 * Real.sin (radians (M_moon T))
    + 1.274027 * Real.sin (radians (2 * D_moon T - M_moon T))
    + 0.658314 * Real.sin (radians (2 * D_moon T))
    + 0.213618 * Real.sin (radians (2 * M_moon T))
    - 0.185116 * Real.sin (radians (sunM T))
    - 0.114332 * Real.sin (radians (2 * F_moon T))) 360

/-!  ## Planets (src/main.py lines 329-352)

```python
for planet_name, data in planet_data.items():
    try:
        L = (data["L0"] + data["L1"] * T) % 360
        M_planet = (L - data["L0"]) % 360
        E = M_planet + data["e"] * math.degrees(math.sin(math.radians(M_planet)))
        nu = 2 * math.atan(math.sqrt((1 + data["e"]) / (1 - data["e"])) * math.tan(math.radians(E) / 2))
        planet_lon = (math.degrees(nu) + data["L0"]) % 360
        planet_positions[planet_name] = planet_lon
    except:
        planet_positions[planet_name] = (sun_lon + hash(planet_name) % 360) % 360
```

The only operations in the `try` body that can raise are the division
(if `1 - e = 0`) and `math.sqrt` (if its argument is negative); the
guard below captures exactly those.  The `except` arm uses Python's
`hash()` on a string, which is seed-randomized per process; it is
modelled as an arbitrary function parameter `h : String → ℤ`.
-/

/-- Orbital-element record for one planet (`L0`, `L1`, `a`, `e` in the
source's `planet_data` dict). -/
structure PlanetElements where
  L0 : ℚ
  L1 : ℚ
  a : ℚ
  e : ℚ

/-- The eight fixed entries of `planet_data` (src/main.py lines 330-339). -/
def planet_data : List (String × PlanetElements) :=
  [("水星", ⟨252.250906, 149472.6746358, 0.38709893, 0.20563069⟩),
   ("金星", ⟨181.979801, 58517.8156760, 0.72333199, 0.00677323⟩),
   ("火星", ⟨355.433, 19140.299, 1.52366231, 0.09341233⟩),
   ("木星", ⟨34.351519, 3034.90567, 5.20336301, 0.04839266⟩),
   ("土星", ⟨50.077444, 1222.11387, 9.53707032, 0.05415060⟩),
   ("天王星", ⟨314.055, 428.467, 19.19126393, 0.04716771⟩),
   ("海王星", ⟨304.349, 218.486, 30.06896348, 0.00858587⟩),
   ("冥王星", ⟨238.928, 145.18, 39.48, 0.2488⟩)]

/-- The `try` body of the planet loop; `none` exactly when a step would
raise (division by zero in `(1+e)/(1-e)` or a negative `sqrt` argument). -/
noncomputable def planetLonExc (el : PlanetElements) (T : ℝ) : Option ℝ :=
  if el.e = 1 ∨ (1 + el.e) / (1 - el.e) < 0 then none
  else
    let L := pmod ((el.L0 : ℝ) + (el.L1 : ℝ) * T) 360
    let M := pmod (L - (el.L0 : ℝ)) 360
    let E := M + (el.e : ℝ) * degrees (Real.sin (radians M))
    let nu := 2 * Real.arctan
      (Real.sqrt (((1 : ℝ) + (el.e : ℝ)) / (1 - (el.e : ℝ))) * Real.tan (radians E / 2))
    some (pmod (degrees nu + (el.L0 : ℝ)) 360)

/-- One planet-loop iteration including the `except` fallback that mixes
in `hash(planet_name) % 360`. -/
noncomputable def planetLonWithFallback (h : String → ℤ) (name : String)
    (el : PlanetElements) (sun_lon T : ℝ) : ℝ :=
  match planetLonExc el T with
  | some v => v
  | none => pmod (sun_lon + (((h name).emod 360 : ℤ) : ℝ)) 360

/-- The complete `planet_positions` additions of the planet loop, as a
function of the hash seed, the Sun's longitude and `T`. -/
noncomputable def fallbackPlanetPositions (h : String → ℤ) (sun_lon T : ℝ) :
    List (String × ℝ) :=
  planet_data.map (fun p => (p.1, planetLonWithFallback h p.1 p.2 sun_lon T))

end AstroApi

namespace AstroApi

/-- C6: the fallback Julian Day computation applied to 2000-01-01 12:00
with UTC offset 0 yields exactly 2451545.0, the J2000.0 epoch. -/
theorem c6_julian_day_j2000 :
    chartJulianDay 2000 1 1 12 0 0 = 2451545 := by
  norm_num [chartJulianDay, fallbackJulianDay, validateDateTime, toJulianDay,
    pyint, Int.fdiv]

/-- C1 (code bug): the code never subtracts `utcOffsetHours/24` — the
`tz` field of `ChartRequest` is accepted but never passed to either
chart function, so two requests denoting the same UT moment under
different UTC offsets (20:00 at UTC+8 and 12:00 at UTC+0) receive
different Julian Days, while the spec's conversion maps them to the
same Julian Day 2451545.0. -/
theorem c1_julian_day_ignores_utc_offset :
    chartJulianDay 2000 1 1 20 0 8 ≠ chartJulianDay 2000 1 1 12 0 0 ∧
    specJulianDayUT 2000 1 1 20 0 8 = specJulianDayUT 2000 1 1 12 0 0 ∧
    chartJulianDay 2000 1 1 20 0 8 = 2451545 + 8 / 24 := by
  refine ⟨?_, ?_, ?_⟩ <;>
    norm_num [chartJulianDay, fallbackJulianDay, validateDateTime, toJulianDay,
      specJulianDayUT, pyint, Int.fdiv]

/-- C3 counterexample: with month 13 (out of range) the chart
computation does not fail — it silently proceeds (with month replaced
by 1) and returns the Julian Day for 2000-01-01 12:00. -/
theorem c3_out_of_range_month_no_error :
    fallbackJulianDay 2000 13 1 12 0 = Except.ok 2451545 := by
  norm_num [fallbackJulianDay, validateDateTime, toJulianDay, pyint, Int.fdiv]

/-- C3 amended: out-of-range calendar or clock fields never produce an
error; each is silently replaced by a default (month → 1, day → 1,
hour → 12, minute → 0), the substituted fields are always in range, the
Julian-Day stage always succeeds, and an unparseable time string yields
the default 12:00. -/
theorem c3_silent_default_substitution :
    (∀ year month day hour minute : ℤ,
      let v := validateDateTime year month day hour minute
      (1 ≤ v.2.1 ∧ v.2.1 ≤ 12) ∧
      (1 ≤ v.2.2.1 ∧ v.2.2.1 ≤ 31) ∧
      (0 ≤ v.2.2.2.1 ∧ v.2.2.2.1 ≤ 23) ∧
      (0 ≤ v.2.2.2.2 ∧ v.2.2.2.2 ≤ 59) ∧
      (¬(1 ≤ month ∧ month ≤ 12) → v.2.1 = 1) ∧
      (¬(1 ≤ day ∧ day ≤ 31) → v.2.2.1 = 1) ∧
      (¬(0 ≤ hour ∧ hour ≤ 23) → v.2.2.2.1 = 12) ∧
      (¬(0 ≤ minute ∧ minute ≤ 59) → v.2.2.2.2 = 0) ∧
      (∃ jd : ℚ, fallbackJulianDay year month day hour minute = Except.ok jd)) ∧
    parse_time_string ("not a time".data) = (12, 0) := by
  constructor
  · intro year month day hour minute
    refine ⟨?_, ?_, ?_, ?_, ?_, ?_, ?_, ?_, ?_⟩
    · simp only [validateDateTime]; split_ifs with h <;> omega
    · simp only [validateDateTime]; split_ifs with h <;> omega
    · simp only [validateDateTime]; split_ifs with h <;> omega
    · simp only [validateDateTime]; split_ifs with h <;> omega
    · intro h; simp only [validateDateTime, if_neg h]
    · intro h; simp only [validateDateTime, if_neg h]
    · intro h; simp only [validateDateTime, if_neg h]
    · intro h; simp only [validateDateTime, if_neg h]
    · exact ⟨_, rfl⟩
  · decide

/-- C3 witness: a concrete fully out-of-range input (month 13, day 32,
hour 24, minute 60) is replaced by the defaults and still yields a
Julian Day. -/
theorem c3_silent_default_substitution_witness :
    ¬(1 ≤ (13 : ℤ) ∧ (13 : ℤ) ≤ 12) ∧
    (validateDateTime 2000 13 32 24 60).2.1 = 1 ∧
    (validateDateTime 2000 13 32 24 60).2.2.1 = 1 ∧
    (validateDateTime 2000 13 32 24 60).2.2.2.1 = 12 ∧
    (validateDateTime 2000 13 32 24 60).2.2.2.2 = 0 ∧
    (∃ jd : ℚ, fallbackJulianDay 2000 13 32 24 60 = Except.ok jd) := by
  have h := c3_silent_default_substitution.1 2000 13 32 24 60
  exact ⟨by decide,
    h.2.2.2.2.1 (by decide),
    h.2.2.2.2.2.1 (by decide),
    h.2.2.2.2.2.2.1 (by decide),
    h.2.2.2.2.2.2.2.1 (by decide),
    h.2.2.2.2.2.2.2.2⟩

/-- C2 counterexample: at JD 2451545.0 (2000-01-01 12:00), longitude 0,
the code's sidereal time is 100.46061837° — the spec formula gives
280.46061837°, and the 180° difference is the extra
`(hour + minute/60)·15 = 180°` time-of-day term. -/
theorem c2_lst_extra_term_counterexample :
    LSTcode 2451545 0 12 0 ≠ specLST 2451545 0 ∧
    LSTcode 2451545 0 12 0 = 100.46061837 ∧
    specLST 2451545 0 = 280.46061837 := by
  refine ⟨?_, ?_, ?_⟩ <;>
    norm_num [LSTcode, specLST, GMST0, pmod]

/-- C2 amended: the local sidereal time used for the angles is
`LST = (GMST0 + longitudeDegrees + (hour + minute/60)·15) mod 360` with
`GMST0 = (280.46061837 + 360.98564736629·n) mod 360`, `n = JD −
2451545.0` — i.e. the code adds an additional time-of-day term on top
of what JD already encodes; the result always lies in `[0, 360)`. -/
theorem c2_lst_amended (JD lon : ℚ) (hour minute : ℤ) :
    LSTcode JD lon hour minute = specLSTAmended JD lon hour minute ∧
    0 ≤ LSTcode JD lon hour minute ∧ LSTcode JD lon hour minute < 360 := by
  refine ⟨rfl, pmod_nonneg _ (by norm_num), pmod_lt _ (by norm_num)⟩

/-- C10: for every real input, the degrees component lies in `[0, 29]`
and the minutes component in `[0, 59]`, so the rendered position is
always within a 30° sign. -/
theorem c10_degrees_minutes_in_range (x : ℝ) :
    0 ≤ (decimal_to_degrees_minutes x).1 ∧ (decimal_to_degrees_minutes x).1 ≤ 29 ∧
    0 ≤ (decimal_to_degrees_minutes x).2 ∧ (decimal_to_degrees_minutes x).2 ≤ 59 := by
  have h30 : (0 : ℝ) < 30 := by norm_num
  have hs0 : 0 ≤ pmod x 30 := pmod_nonneg x h30
  have hs1 : pmod x 30 < 30 := pmod_lt x h30
  set s : ℝ := pmod x 30 with hsdef
  have hfl : (⌊s⌋ : ℝ) ≤ s := Int.floor_le s
  have hfl1 : s < (⌊s⌋ : ℝ) + 1 := Int.lt_floor_add_one s
  have hd : pyint s = ⌊s⌋ := pyint_of_nonneg hs0
  have hm : pyint ((s - ((⌊s⌋ : ℤ) : ℝ)) * 60) = ⌊(s - (⌊s⌋ : ℝ)) * 60⌋ :=
    pyint_of_nonneg (by nlinarith)
  have hres : decimal_to_degrees_minutes x = (⌊s⌋, ⌊(s - (⌊s⌋ : ℝ)) * 60⌋) := by
    simp only [decimal_to_degrees_minutes, ← hsdef, hd, hm]
  rw [hres]
  refine ⟨Int.floor_nonneg.mpr hs0, ?_, Int.floor_nonneg.mpr (by nlinarith), ?_⟩
  · have : ⌊s⌋ < 30 := Int.floor_lt.mpr (by exact_mod_cast hs1)
    omega
  · have : ⌊(s - (⌊s⌋ : ℝ)) * 60⌋ < 60 := Int.floor_lt.mpr (by push_cast; nlinarith)
    omega

/-- If every house either fails its interval test or (after a prefix of
failed tests) raises an index error, the loop returns house 1. -/
theorem houseLoop_default_one {α : Type*} [LinearOrderedField α]
    (lon : α) (houses : List α) :
    ∀ ks : List ℕ,
      ((∀ k ∈ ks, houseStep lon houses k = .nomatch) ∨
        (∃ pre k post, ks = pre ++ k :: post ∧
          (∀ j ∈ pre, houseStep lon houses j = .nomatch) ∧
          houseStep lon houses k = .err)) →
      houseLoop lon houses ks = 1 := by
  intro ks
  induction ks with
  | nil => intro _; rfl
  | cons k ks ih =>
    intro h
    rcases h with hall | ⟨pre, k₀, post, heq, hpre, herr⟩
    · have hk := hall k (List.mem_cons_self k ks)
      simp only [houseLoop, hk]
      exact ih (Or.inl fun j hj => hall j (List.mem_cons_of_mem k hj))
    · cases pre with
      | nil =>
        simp only [List.nil_append, List.cons.injEq] at heq
        obtain ⟨hk, _⟩ := heq
        subst hk
        simp only [houseLoop, herr]
      | cons p pre' =>
        simp only [List.cons_append, List.cons.injEq] at heq
        obtain ⟨hk, htail⟩ := heq
        subst hk
        have hp := hpre k (List.mem_cons_self k pre')
        simp only [houseLoop, hp]
        exact ih (Or.inr ⟨pre', k₀, post, htail,
          fun j hj => hpre j (List.mem_cons_of_mem k hj), herr⟩)

/-- C9: when an internal exception occurs during house assignment (an
out-of-range cusp-list index, after a prefix of failed interval tests)
or when no cusp interval test matches the longitude, `get_planet_house`
silently returns house 1 instead of raising. -/
theorem c9_house_default_one (lon : ℝ) (houses : List ℝ)
    (h : (∀ k ∈ List.range' 1 12, houseStep (pmod lon 360) houses k = .nomatch) ∨
      (∃ pre k post, List.range' 1 12 = pre ++ k :: post ∧
        (∀ j ∈ pre, houseStep (pmod lon 360) houses j = .nomatch) ∧
        houseStep (pmod lon 360) houses k = .err)) :
    get_planet_house lon houses = 1 :=
  houseLoop_default_one (pmod lon 360) houses (List.range' 1 12) h

/-- A real in `(-360, 360)` reduces mod 360 by at most one shift. -/
theorem pmod_two_case {u : ℝ} (h0 : -360 < u) (h1 : u < 360) :
    pmod u 360 = if 0 ≤ u then u else u + 360 := by
  split_ifs with h
  · exact pmod_eq_self (by norm_num) h h1
  · have key : pmod (u + ((1 : ℤ) : ℝ) * 360) 360 = pmod u 360 :=
      pmod_add_int_mul u (by norm_num) 1
    have harg : u + ((1 : ℤ) : ℝ) * 360 = u + 360 := by push_cast; ring
    rw [harg] at key
    rw [← key]
    exact pmod_eq_self (by norm_num) (by linarith) (by linarith)

theorem equalCusps_get (a : ℝ) (i : ℕ) (h : i < 12) :
    (equalCusps a).get? i = some (pmod (a + (i : ℝ) * 30) 360) := by
  simp only [equalCusps, List.get?_eq_getElem?, List.getElem?_map,
    List.getElem?_range h]
  rfl

/-- The (possibly wrapping) half-open interval test of `get_planet_house`
between a cusp `s ∈ [0,360)` and the 30°-later cusp holds exactly when
the longitude lies within 30° after `s` on the circle. -/
theorem wrapTest_iff {s lon : ℝ} (hs0 : 0 ≤ s) (hs1 : s < 360)
    (hl0 : 0 ≤ lon) (hl1 : lon < 360) :
    (if s < pmod (s + 30) 360 then s ≤ lon ∧ lon < pmod (s + 30) 360
     else s ≤ lon ∨ lon < pmod (s + 30) 360) ↔ pmod (lon - s) 360 < 30 := by
  have hu0 : -360 < lon - s := by linarith
  have hu1 : lon - s < 360 := by linarith
  by_cases hA : s + 30 < 360
  · have he : pmod (s + 30) 360 = s + 30 :=
      pmod_eq_self (by norm_num) (by linarith) hA
    rw [he, if_pos (by linarith), pmod_two_case hu0 hu1]
    split_ifs with h
    · constructor
      · rintro ⟨h1, h2⟩; linarith
      · intro hlt; exact ⟨by linarith, by linarith⟩
    · constructor
      · rintro ⟨h1, h2⟩; exfalso; linarith
      · intro hlt; exfalso; linarith
  · push_neg at hA
    have he : pmod (s + 30) 360 = s - 330 := by
      have key : pmod ((s - 330) + ((1 : ℤ) : ℝ) * 360) 360 = pmod (s - 330) 360 :=
        pmod_add_int_mul (s - 330) (by norm_num) 1
      have harg : (s - 330) + ((1 : ℤ) : ℝ) * 360 = s + 30 := by push_cast; ring
      rw [harg] at key
      rw [key]
      exact pmod_eq_self (by norm_num) (by linarith) (by linarith)
    rw [he, if_neg (by linarith), pmod_two_case hu0 hu1]
    split_ifs with h
    · constructor
      · intro _; linarith
      · intro _; left; linarith
    · constructor
      · rintro (h1 | h2)
        · exfalso; linarith
        · linarith
      · intro hlt; right; linarith

/-- Characterization of one loop iteration over the code's equal-house
cusps: house `k`'s test passes iff the longitude's offset from the
ascendant lands in the `k`-th 30° sector, and the iteration otherwise
reports no match (never an error). -/
theorem houseStep_equalCusps (a lon : ℝ) (hl0 : 0 ≤ lon) (hl1 : lon < 360)
    (k : ℕ) (hk1 : 1 ≤ k) (hk2 : k ≤ 12) :
    (houseStep lon (equalCusps a) k = .found k ↔
      (30 * ((k : ℝ) - 1) ≤ pmod (lon - a) 360 ∧ pmod (lon - a) 360 < 30 * (k : ℝ))) ∧
    (houseStep lon (equalCusps a) k = .nomatch ↔
      ¬(30 * ((k : ℝ) - 1) ≤ pmod (lon - a) 360 ∧ pmod (lon - a) 360 < 30 * (k : ℝ))) := by
  have hkm : k - 1 < 12 := by omega
  have hcast : ((k - 1 : ℕ) : ℝ) = (k : ℝ) - 1 := by
    push_cast [Nat.cast_sub hk1]
    ring
  have hs' : (equalCusps a).get? (k - 1) = some (pmod (a + ((k : ℝ) - 1) * 30) 360) := by
    rw [equalCusps_get a (k - 1) hkm, hcast]
  have hnext : (equalCusps a).get? ((if k < 12 then k + 1 else 1) - 1) =
      some (pmod ((a + ((k : ℝ) - 1) * 30) + 30) 360) := by
    by_cases hk : k < 12
    · have hidx : (if k < 12 then k + 1 else 1) - 1 = k := by simp [hk]
      rw [hidx, equalCusps_get a k hk]
      have harg : a + (k : ℝ) * 30 = (a + ((k : ℝ) - 1) * 30) + 30 := by ring
      rw [harg]
    · have hk12 : k = 12 := by omega
      have hidx : (if k < 12 then k + 1 else 1) - 1 = 0 := by simp [hk]
      rw [hidx, equalCusps_get a 0 (by omega)]
      subst hk12
      have hcong : pmod (a + (0 : ℕ) * 30) 360 =
          pmod ((a + ((12 : ℝ) - 1) * 30) + 30) 360 := by
        apply pmod_congr (by norm_num : (360 : ℝ) ≠ 0) (-1)
        push_cast
        ring
      rw [hcong]
      norm_num
  have hred : houseStep lon (equalCusps a) k =
      (if (if pmod (a + ((k : ℝ) - 1) * 30) 360 <
            pmod ((a + ((k : ℝ) - 1) * 30) + 30) 360
          then pmod (a + ((k : ℝ) - 1) * 30) 360 ≤ lon ∧
            lon < pmod ((a + ((k : ℝ) - 1) * 30) + 30) 360
          else pmod (a + ((k : ℝ) - 1) * 30) 360 ≤ lon ∨
            lon < pmod ((a + ((k : ℝ) - 1) * 30) + 30) 360)
        then .found k else .nomatch) := by
    simp only [houseStep, hs', hnext]
    by_cases h1 : pmod (a + ((k : ℝ) - 1) * 30) 360 <
        pmod ((a + ((k : ℝ) - 1) * 30) + 30) 360
    · simp [h1]
    · simp [h1]
  have hecong : pmod ((a + ((k : ℝ) - 1) * 30) + 30) 360 =
      pmod (pmod (a + ((k : ℝ) - 1) * 30) 360 + 30) 360 := by
    symm
    apply pmod_congr (by norm_num : (360 : ℝ) ≠ 0) (-⌊(a + ((k : ℝ) - 1) * 30) / 360⌋)
    simp only [pmod]
    push_cast
    ring
  rw [hecong] at hred
  have hs0 : 0 ≤ pmod (a + ((k : ℝ) - 1) * 30) 360 := pmod_nonneg _ (by norm_num)
  have hs1 : pmod (a + ((k : ℝ) - 1) * 30) 360 < 360 := pmod_lt _ (by norm_num)
  have hT := wrapTest_iff hs0 hs1 hl0 hl1
  have hD0 : 0 ≤ pmod (lon - a) 360 := pmod_nonneg _ (by norm_num)
  have hD1 : pmod (lon - a) 360 < 360 := pmod_lt _ (by norm_num)
  have hkR1 : (1 : ℝ) ≤ (k : ℝ) := by exact_mod_cast hk1
  have hkR2 : (k : ℝ) ≤ 12 := by exact_mod_cast hk2
  have hcong1 : pmod (lon - pmod (a + ((k : ℝ) - 1) * 30) 360) 360 =
      pmod (pmod (lon - a) 360 - 30 * ((k : ℝ) - 1)) 360 := by
    apply pmod_congr (by norm_num : (360 : ℝ) ≠ 0)
      (⌊(a + ((k : ℝ) - 1) * 30) / 360⌋ + ⌊(lon - a) / 360⌋)
    simp only [pmod]
    push_cast
    ring
  have hchar : pmod (lon - pmod (a + ((k : ℝ) - 1) * 30) 360) 360 < 30 ↔
      (30 * ((k : ℝ) - 1) ≤ pmod (lon - a) 360 ∧ pmod (lon - a) 360 < 30 * (k : ℝ)) := by
    rw [hcong1]
    have hu0 : -360 < pmod (lon - a) 360 - 30 * ((k : ℝ) - 1) := by nlinarith
    have hu1 : pmod (lon - a) 360 - 30 * ((k : ℝ) - 1) < 360 := by nlinarith
    rw [pmod_two_case hu0 hu1]
    split_ifs with h
    · constructor
      · intro hlt; exact ⟨by linarith, by linarith⟩
      · rintro ⟨h1, h2⟩; linarith
    · constructor
      · intro hlt; exfalso; nlinarith
      · rintro ⟨h1, h2⟩; exfalso; linarith
  rw [hred, if_congr (hT.trans hchar) rfl rfl]
  constructor
  · split_ifs with h <;> simp [h]
  · split_ifs with h <;> simp [h]

/-- The loop returns the unique matching house when one house matches
and all others report no match. -/
theorem houseLoop_found_unique {α : Type*} [LinearOrderedField α]
    (lon : α) (houses : List α) :
    ∀ (ks : List ℕ) (k : ℕ), k ∈ ks →
      houseStep lon houses k = .found k →
      (∀ j ∈ ks, j ≠ k → houseStep lon houses j = .nomatch) →
      houseLoop lon houses ks = k := by
  intro ks
  induction ks with
  | nil => intro k hk; simp at hk
  | cons j js ih =>
    intro k hk hfound hothers
    by_cases hjk : j = k
    · subst hjk
      simp only [houseLoop, hfound]
    · have hj := hothers j (List.mem_cons_self j js) hjk
      simp only [houseLoop, hj]
      have hk' : k ∈ js := by
        rcases List.mem_cons.mp hk with h | h
        · exact absurd h.symm hjk
        · exact h
      exact ih k hk' hfound fun j' hj' hne => hothers j' (List.mem_cons_of_mem j hj') hne

/-- C5: over the cusp sets the fallback house system produces (twelve
equal 30° sectors starting at the ascendant, each cusp normalized to
`[0,360)`), exactly one house's interval test accepts any given
longitude — the twelve wraparound intervals partition the circle — and
`get_planet_house` returns that house, a number in `[1,12]`; in
particular longitude 359.5° with house-12 cusp 330° and house-1 cusp 0°
is assigned house 12. -/
theorem c5_house_partition :
    (∀ asc lon : ℝ,
      (∃! k : ℕ, 1 ≤ k ∧ k ≤ 12 ∧
        houseStep (pmod lon 360) (equalCusps asc) k = .found k) ∧
      1 ≤ get_planet_house lon (equalCusps asc) ∧
      get_planet_house lon (equalCusps asc) ≤ 12 ∧
      houseStep (pmod lon 360) (equalCusps asc) (get_planet_house lon (equalCusps asc)) =
        .found (get_planet_house lon (equalCusps asc))) ∧
    get_planet_house (359.5 : ℝ) (equalCusps 0) = 12 := by
  have main : ∀ asc lon : ℝ,
      (∃! k : ℕ, 1 ≤ k ∧ k ≤ 12 ∧
        houseStep (pmod lon 360) (equalCusps asc) k = .found k) ∧
      1 ≤ get_planet_house lon (equalCusps asc) ∧
      get_planet_house lon (equalCusps asc) ≤ 12 ∧
      houseStep (pmod lon 360) (equalCusps asc) (get_planet_house lon (equalCusps asc)) =
        .found (get_planet_house lon (equalCusps asc)) := by
    intro asc lon
    have hL0 : 0 ≤ pmod lon 360 := pmod_nonneg _ (by norm_num)
    have hL1 : pmod lon 360 < 360 := pmod_lt _ (by norm_num)
    have hD0 : 0 ≤ pmod (pmod lon 360 - asc) 360 := pmod_nonneg _ (by norm_num)
    have hD1 : pmod (pmod lon 360 - asc) 360 < 360 := pmod_lt _ (by norm_num)
    set D : ℝ := pmod (pmod lon 360 - asc) 360 with hDdef
    have hiff := fun (k : ℕ) (h1 : 1 ≤ k) (h2 : k ≤ 12) =>
      houseStep_equalCusps asc (pmod lon 360) hL0 hL1 k h1 h2
    -- the sector index
    have hfl0 : (0 : ℤ) ≤ ⌊D / 30⌋ := Int.floor_nonneg.mpr (by positivity)
    have hfl1 : ⌊D / 30⌋ < 12 := by
      apply Int.floor_lt.mpr
      push_cast
      rw [div_lt_iff₀ (by norm_num : (0:ℝ) < 30)]
      linarith
    set k₀ : ℕ := ⌊D / 30⌋.toNat + 1 with hk₀def
    have hk₀1 : 1 ≤ k₀ := by omega
    have hk₀2 : k₀ ≤ 12 := by omega
    have hk₀cast : (k₀ : ℝ) = (⌊D / 30⌋ : ℝ) + 1 := by
      have ht : ((⌊D / 30⌋.toNat : ℕ) : ℝ) = ((⌊D / 30⌋ : ℤ) : ℝ) := by
        exact_mod_cast Int.toNat_of_nonneg hfl0
      rw [hk₀def, Nat.cast_add, Nat.cast_one, ht]
    have hin : 30 * ((k₀ : ℝ) - 1) ≤ D ∧ D < 30 * (k₀ : ℝ) := by
      rw [hk₀cast]
      have h1 : (⌊D / 30⌋ : ℝ) ≤ D / 30 := Int.floor_le _
      have h2 : D / 30 < (⌊D / 30⌋ : ℝ) + 1 := Int.lt_floor_add_one _
      constructor
      · have := mul_le_mul_of_nonneg_left h1 (by norm_num : (0:ℝ) ≤ 30)
        rw [mul_div_cancel₀] at this <;> [linarith; norm_num]
      · have := mul_lt_mul_of_pos_left h2 (by norm_num : (0:ℝ) < 30)
        rw [mul_div_cancel₀] at this <;> [linarith; norm_num]
    -- uniqueness of the sector
    have huniq : ∀ k : ℕ, 1 ≤ k → k ≤ 12 →
        (30 * ((k : ℝ) - 1) ≤ D ∧ D < 30 * (k : ℝ)) → k = k₀ := by
      intro k h1 h2 ⟨ha, hb⟩
      by_contra hne
      rcases Nat.lt_or_ge k k₀ with hlt | hge
      · have hks : k + 1 ≤ k₀ := hlt
        have hc : ((k + 1 : ℕ) : ℝ) ≤ ((k₀ : ℕ) : ℝ) := (Nat.cast_le (α := ℝ)).mpr hks
        rw [Nat.cast_add, Nat.cast_one] at hc
        linarith [hin.1, hb]
      · have hgt : k₀ < k := lt_of_le_of_ne hge (fun h => hne h.symm)
        have hks : k₀ + 1 ≤ k := hgt
        have hc : ((k₀ + 1 : ℕ) : ℝ) ≤ ((k : ℕ) : ℝ) := (Nat.cast_le (α := ℝ)).mpr hks
        rw [Nat.cast_add, Nat.cast_one] at hc
        linarith [hin.2, ha]
    have hfound₀ : houseStep (pmod lon 360) (equalCusps asc) k₀ = .found k₀ :=
      ((hiff k₀ hk₀1 hk₀2).1).mpr hin
    have hget : get_planet_house lon (equalCusps asc) = k₀ := by
      apply houseLoop_found_unique (pmod lon 360) (equalCusps asc) (List.range' 1 12) k₀
      · exact List.mem_range'_1.mpr ⟨hk₀1, by omega⟩
      · exact hfound₀
      · intro j hj hne
        have hjb := List.mem_range'_1.mp hj
        have hj1 : 1 ≤ j := hjb.1
        have hj2 : j ≤ 12 := by omega
        apply ((hiff j hj1 hj2).2).mpr
        intro hint
        exact hne (huniq j hj1 hj2 hint)
    refine ⟨⟨k₀, ⟨hk₀1, hk₀2, hfound₀⟩, ?_⟩, ?_, ?_, ?_⟩
    · rintro k ⟨h1, h2, hf⟩
      exact huniq k h1 h2 (((hiff k h1 h2).1).mp hf)
    · rw [hget]; exact hk₀1
    · rw [hget]; exact hk₀2
    · rw [hget]; exact hfound₀
  refine ⟨main, ?_⟩
  obtain ⟨⟨kk, hkk, huq⟩, hge1, hle12, hfound⟩ := main 0 359.5
  have hpm : pmod (359.5 : ℝ) 360 = 359.5 :=
    pmod_eq_self (by norm_num) (by norm_num) (by norm_num)
  have h12 : houseStep (pmod (359.5 : ℝ) 360) (equalCusps 0) 12 = .found 12 := by
    apply ((houseStep_equalCusps 0 (pmod (359.5 : ℝ) 360)
      (pmod_nonneg _ (by norm_num)) (pmod_lt _ (by norm_num)) 12
      (by norm_num) (by norm_num)).1).mpr
    rw [hpm]
    have hsub : pmod ((359.5 : ℝ) - 0) 360 = 359.5 := by
      rw [sub_zero, hpm]
    rw [hsub]
    norm_num
  have e1 : get_planet_house (359.5 : ℝ) (equalCusps 0) = kk :=
    huq _ ⟨hge1, hle12, hfound⟩
  have e2 : (12 : ℕ) = kk := huq 12 ⟨by norm_num, le_refl 12, h12⟩
  rw [e1, ← e2]

theorem degrees_radians (x : ℝ) : degrees (radians x) = x := by
  unfold degrees radians
  field_simp

/-- C4 counterexample: at `LST = 0`, latitude 0 and `T = 0` (obliquity
23.4393°) the code returns 23.4393° while the spec's `atan2` formula
gives 90° — the code does not implement the spec's ascendant formula. -/
theorem c4_asc_formula_counterexample :
    asc_lon 0 0 0 = 23.4393 ∧ ascSpec 0 (obliquity 0) 0 = 90 ∧
    asc_lon 0 0 0 ≠ ascSpec 0 (obliquity 0) 0 := by
  have hpi := Real.pi_pos
  have heps : obliquity 0 = 23.4393 := by norm_num [obliquity]
  have hrad0 : radians 0 = 0 := by simp [radians]
  have hb1 : -(Real.pi / 2) < radians 23.4393 := by
    unfold radians
    nlinarith
  have hb2 : radians 23.4393 < Real.pi / 2 := by
    unfold radians
    nlinarith
  have h1 : asc_lon 0 0 0 = 23.4393 := by
    simp only [asc_lon, heps, hrad0, Real.cos_zero, Real.sin_zero]
    rw [if_neg (by norm_num)]
    have harg : (1 * Real.tan (radians 23.4393) * 1 - 0 * 0) / 1 =
        Real.tan (radians 23.4393) := by ring
    rw [harg, Real.arctan_tan hb1 hb2, degrees_radians]
    exact pmod_eq_self (by norm_num) (by norm_num) (by norm_num)
  have h2 : ascSpec 0 (obliquity 0) 0 = 90 := by
    simp only [ascSpec, hrad0, Real.cos_zero, Real.sin_zero, Real.tan_zero]
    have harg : -(0 * Real.cos (radians (obliquity 0))
        + 0 * Real.sin (radians (obliquity 0))) = 0 := by ring
    rw [harg]
    have hat : atan2 1 0 = Real.pi / 2 := by
      unfold atan2
      rw [if_neg (by norm_num), if_neg (by norm_num), if_pos (by norm_num)]
    rw [hat]
    have hdeg : degrees (Real.pi / 2) = 90 := by
      unfold degrees
      field_simp
      ring
    rw [hdeg]
    exact pmod_eq_self (by norm_num) (by norm_num) (by norm_num)
  refine ⟨h1, h2, ?_⟩
  rw [h1, h2]
  norm_num

/-- C4 amended: the code's ascendant equals
`degrees(atan((cos LST·tan ε·cos φ − sin φ·sin LST)/cos LST)) mod 360`
with 180° added (mod 360) when `LST > 180`, `ε = 23.4393 − 0.0130·T`;
the result always lies in `[0, 360)`. -/
theorem c4_asc_amended (LST latitude T : ℝ) :
    asc_lon LST latitude T = ascAmended LST latitude T ∧
    0 ≤ asc_lon LST latitude T ∧ asc_lon LST latitude T < 360 := by
  refine ⟨rfl, ?_, ?_⟩ <;>
    · simp only [asc_lon]
      split_ifs
      · first
        | exact pmod_nonneg _ (by norm_num)
        | exact pmod_lt _ (by norm_num)
      · first
        | exact pmod_nonneg _ (by norm_num)
        | exact pmod_lt _ (by norm_num)

/-- C8: the Moon's longitude computed by the code is exactly its mean
longitude plus the six claimed periodic correction terms (with the Sun's
mean anomaly in the fifth term), taken modulo 360; the result lies in
`[0, 360)`. -/
theorem c8_moon_six_terms (T : ℝ) :
    moon_lon T = moonSpecSix T ∧ 0 ≤ moon_lon T ∧ moon_lon T < 360 := by
  refine ⟨?_, pmod_nonneg _ (by norm_num), pmod_lt _ (by norm_num)⟩
  unfold moon_lon moonSpecSix
  congr 1
  simp only [moon_corrections, List.sum_cons, List.sum_nil]
  ring

/-- C7: the fallback chart's planet positions do not depend on the
process's string-hash seed: the only use of `hash()` sits in the
per-planet `except` arm, and that arm is unreachable because the Kepler
step's guards hold for all eight tabulated eccentricities (each lies
strictly between −1 and 1).  Hence two executions with identical inputs
— in particular in separate processes with different hash seeds —
produce identical positions. -/
theorem c7_positions_hash_independent (h₁ h₂ : String → ℤ) (sun_lon T : ℝ) :
    fallbackPlanetPositions h₁ sun_lon T = fallbackPlanetPositions h₂ sun_lon T := by
  unfold fallbackPlanetPositions
  apply List.map_congr_left
  intro p hp
  have hindep : ∀ el : PlanetElements, -1 < el.e → el.e < 1 →
      planetLonWithFallback h₁ p.1 el sun_lon T =
        planetLonWithFallback h₂ p.1 el sun_lon T := by
    intro el he1 he2
    have hcond : ¬(el.e = 1 ∨ (1 + el.e) / (1 - el.e) < 0) := by
      push_neg
      refine ⟨ne_of_lt he2, ?_⟩
      apply div_nonneg <;> linarith
    unfold planetLonWithFallback planetLonExc
    rw [if_neg hcond]
  fin_cases hp <;> exact congrArg _ (hindep _ (by norm_num) (by norm_num))

/-- C5 witness: the wraparound instance of the claim — longitude 359.5°
against the cusp set starting at 0° is assigned house 12. -/
theorem c5_house_partition_witness :
    get_planet_house (359.5 : ℝ) (equalCusps 0) = 12 :=
  c5_house_partition.2

/-- C9 witness: with an empty cusp list the very first lookup raises
and `get_planet_house` returns 1. -/
theorem c9_house_default_one_witness :
    houseStep (pmod (0 : ℝ) 360) ([] : List ℝ) 1 = .err ∧
    get_planet_house (0 : ℝ) ([] : List ℝ) = 1 := by
  have herr : houseStep (pmod (0 : ℝ) 360) ([] : List ℝ) 1 = .err := by
    simp [houseStep]
  refine ⟨herr, c9_house_default_one 0 [] (Or.inr ⟨[], 1, List.range' 2 11, ?_, ?_, herr⟩)⟩
  · rfl
  · intro j hj
    simp at hj

end AstroApi
